import Mathlib

/-!
Shallow embedding of the violet-cache ingestion pipeline.

Sources embedded here:
- `src/app/enums.py` (provider / job enums)
- `src/app/models/models.py` (`WorkflowJob`, `GoogleAuthData`, `EmailAccount`)
- `src/app/repositories/job_repository.py` (`JobRepository`)
- `src/app/services/job_service.py` (`JobService`)
- `src/app/services/email_account_service.py`
  (`check_auth_credentials_valid`, `start_email_account_sync`)
- `src/app/strategies/*` (the two factories and the Gmail strategies)
- `src/app/client/gmail.py` (`GmailClient._get_with_backoff`, backoff delay,
  `fetch_messages_by_ids` ordering)
- `src/app/tasks/celery/tasks.py` (`_sync_email_metadata_orchestrator`)

The database session is modelled as an explicit `JobStore` value threaded
through the functions; every repository commit is immediate.  An
orchestration run's environment (`OrchEnv`) supplies the account row and
the credential row as they sit in the database.  The fetch client is
modelled at the function level (per-attempt outcome traces for
`_get_with_backoff`, completion orders for `fetch_messages_by_ids`); the
orchestrator itself never reaches the fetch layer, because
`GmailAuthDataStrategy.load_auth_data` calls a repository method that does
not exist and raises `AttributeError` on every run (see `orchestrateTry`),
and the embedding reflects that.  Exceptions are modelled as explicit
outcome values; Python UUIDs are modelled as `Nat` / `String` keys.
-/

namespace VioletCache

/-- Mirrors `EmailProvider` in `src/app/enums.py`. -/
inductive EmailProvider
  | gmail
  | outlook
deriving DecidableEq, Repr

/-- Mirrors `JobStatus` in `src/app/enums.py`. -/
inductive JobStatus
  | queued
  | running
  | succeeded
  | failed
deriving DecidableEq, Repr

/-- Mirrors `JobType` in `src/app/enums.py`. -/
inductive JobType
  | mailbox_sync
deriving DecidableEq, Repr

/-- Mirrors `ResourceType` in `src/app/enums.py`. -/
inductive ResourceType
  | email_account
  | casefile
  | document
deriving DecidableEq, Repr

/-- String value of an `EmailProvider`, as rendered into Python error
messages by the strategy factories. -/
def providerStr : EmailProvider → String
  | .gmail => "gmail"
  | .outlook => "outlook"

/-- Mirrors the `WorkflowJob` table in `src/app/models/models.py`.
Its columns are `celery_task_id`, `job_type`, `status`, `resource_type`,
`progress_current` (default 0), `progress_total` (default 0),
`error_message` (nullable), `resource_id`.  Note: the table has no
`completed_at`, `started_at` or `cursor` column.  `id` models the UUID
primary key as a `Nat`; `celery_task_id` and the created/updated timestamps
play no role in any claim and are omitted. -/
structure WorkflowJob where
  id : Nat
  job_type : JobType
  status : JobStatus
  resource_type : ResourceType
  resource_id : Nat
  progress_current : Nat
  progress_total : Nat
  error_message : Option String
deriving DecidableEq, Repr

/-- The job table of the database: rows in insertion order, plus the next
fresh primary key. -/
structure JobStore where
  jobs : List WorkflowJob
  nextId : Nat
deriving DecidableEq, Repr

/-- The resource-tuple predicate of `JobRepository.find_job_by_resource`
(`src/app/repositories/job_repository.py`): equality on `resource_id`,
`resource_type` and `job_type`. -/
def jobMatchesResource (rid : Nat) (rt : ResourceType) (jt : JobType)
    (j : WorkflowJob) : Bool :=
  j.resource_id == rid && j.resource_type == rt && j.job_type == jt

/-- Mirrors `JobRepository.find_job_by_resource`: select rows matching the
tuple, additionally filtered by status only when `statuses` is non-empty
(`if statuses:` in the source), returning the first row. -/
def find_job_by_resource (st : JobStore) (rid : Nat) (rt : ResourceType)
    (jt : JobType) (statuses : List JobStatus) : Option WorkflowJob :=
  if statuses.isEmpty then
    (st.jobs.filter (jobMatchesResource rid rt jt)).head?
  else
    (st.jobs.filter fun j =>
      jobMatchesResource rid rt jt j && statuses.contains j.status).head?

/-- Mirrors `JobRepository.create`: insert a fresh `WorkflowJob` row with the
given tuple and status; `progress_current` and `progress_total` take their
column defaults (0), `error_message` its default (NULL). -/
def repoCreate (st : JobStore) (rid : Nat) (rt : ResourceType) (jt : JobType)
    (job_status : JobStatus) : JobStore × WorkflowJob :=
  let j : WorkflowJob :=
    { id := st.nextId, job_type := jt, status := job_status,
      resource_type := rt, resource_id := rid,
      progress_current := 0, progress_total := 0, error_message := none }
  ({ jobs := st.jobs ++ [j], nextId := st.nextId + 1 }, j)

/-- Mirrors `JobRepository.update` (`session.add` + `commit` on an existing
primary key): replace the row with the same id. -/
def repoUpdate (st : JobStore) (j : WorkflowJob) : JobStore :=
  { st with jobs := st.jobs.map fun k => if k.id == j.id then j else k }

/-- Mirrors `JobRepository.find_by_id` (`session.get` by primary key). -/
def find_by_id (st : JobStore) (id : Nat) : Option WorkflowJob :=
  st.jobs.find? fun j => j.id == id

/-- Mirrors `JobService.get_or_create_active_job`
(`src/app/services/job_service.py`): look up a job in
{queued, running} for the tuple; if found return it with `created = false`,
otherwise create a queued job and return it with `created = true`.
Result is (store, job, created). -/
def get_or_create_active_job (st : JobStore) (rt : ResourceType) (rid : Nat)
    (jt : JobType) : JobStore × WorkflowJob × Bool :=
  match find_job_by_resource st rid rt jt [JobStatus.queued, JobStatus.running] with
  | some workflow_job => (st, workflow_job, false)
  | none =>
    let created := repoCreate st rid rt jt JobStatus.queued
    (created.1, created.2, true)

/-- Mirrors `JobService.update_job`.  The source looks the job up by id,
then applies ONLY the `status` and `error_message` keyword arguments; the
assignments for `progress_current`, `progress_total`, `cursor`,
`started_at` and `completed_at` are commented out in the source (and the
`WorkflowJob` table has no cursor/timestamp columns at all), so those
parameters are accepted and ignored here exactly as in the source.
A missing job makes the Python code raise (`None` attribute access /
`session.add(None)`); that is modelled by returning `none`. -/
def update_job (st : JobStore) (job_id : Nat) (status : Option JobStatus)
    (error_message : Option String) (progress_current : Option Nat)
    (progress_total : Option Nat) (cursor : Option String)
    (started_at : Option Int) (completed_at : Option Int) :
    Option (JobStore × WorkflowJob) :=
  match find_by_id st job_id with
  | none => none
  | some job0 =>
    let job1 := match status with
      | some s => { job0 with status := s }
      | none => job0
    let job2 := match error_message with
      | some m => { job1 with error_message := some m }
      | none => job1
    some (repoUpdate st job2, job2)

/-! ## Fetch client: `src/app/client/gmail.py` -/

/-- Mirrors `RETRYABLE_STATUS = {403, 429, 500, 502, 503, 504}`. -/
def RETRYABLE_STATUS : List Nat := [403, 429, 500, 502, 503, 504]

/-- Outcome of one `self._client.get(...)` call inside
`GmailClient._get_with_backoff`: either an HTTP response with a status code
and body, or one of the caught transient exception classes
(`httpx.ReadTimeout`, `httpx.ConnectError`, `httpx.RemoteProtocolError`),
carrying its text. -/
inductive HttpOutcome
  | resp (status : Nat) (body : String)
  | transientExc (msg : String)
deriving DecidableEq, Repr

/-- What `_get_with_backoff` raises when it does not return a response:
`r.raise_for_status()` on a non-retryable error status, the re-raised last
transient exception, or `RuntimeError("Retries exhausted")`. -/
inductive FetchError
  | httpStatusError (status : Nat)
  | transient (msg : String)
  | retriesExhausted
deriving DecidableEq, Repr

/-- Result of `_get_with_backoff`: a returned response or a raised error. -/
inductive FetchResult
  | ok (status : Nat) (body : String)
  | raised (e : FetchError)
deriving DecidableEq, Repr

/-- The attempt loop of `GmailClient._get_with_backoff`, with the network
modelled by `outcomes` (the outcome of the GET made on each 0-indexed
attempt).  `fuel` is the number of loop iterations left, `attempt` the
current attempt index, `last_exc` the `last_exc` variable of the source.
Returns the result together with the number of GET requests issued.
When the loop ends: `raise last_exc` if one was captured, otherwise
`raise RuntimeError("Retries exhausted")`. -/
def getWithBackoffAux (outcomes : Nat → HttpOutcome) (attempt : Nat)
    (fuel : Nat) (last_exc : Option String) : FetchResult × Nat :=
  match fuel with
  | 0 =>
    match last_exc with
    | some m => (.raised (.transient m), 0)
    | none => (.raised .retriesExhausted, 0)
  | fuel' + 1 =>
    match outcomes attempt with
    | .resp s b =>
      if s < 400 then (.ok s b, 1)
      else if RETRYABLE_STATUS.contains s then
        let r := getWithBackoffAux outcomes (attempt + 1) fuel' last_exc
        (r.1, r.2 + 1)
      else
        (.raised (.httpStatusError s), 1)
    | .transientExc m =>
      let r := getWithBackoffAux outcomes (attempt + 1) fuel' (some m)
      (r.1, r.2 + 1)

/-- Mirrors `GmailClient._get_with_backoff` (`for attempt in
range(max_retries)` with `last_exc = None` initially; `max_retries` defaults
to 8 at every call site). -/
def get_with_backoff (outcomes : Nat → HttpOutcome) (max_retries : Nat) :
    FetchResult × Nat :=
  getWithBackoffAux outcomes 0 max_retries none

/-- An attempt outcome the source retries: a response whose status is in
`RETRYABLE_STATUS`, or a caught transient exception. -/
def retryableOutcome : HttpOutcome → Bool
  | .resp s _ => RETRYABLE_STATUS.contains s
  | .transientExc _ => true

/-- The `last_exc` variable after running `fuel` further attempts from
`attempt`, assuming none of them returns or raises out of the loop. -/
def trackLastExc (outcomes : Nat → HttpOutcome) (attempt fuel : Nat)
    (last_exc : Option String) : Option String :=
  match fuel with
  | 0 => last_exc
  | fuel' + 1 =>
    match outcomes attempt with
    | .resp _ _ => trackLastExc outcomes (attempt + 1) fuel' last_exc
    | .transientExc m => trackLastExc outcomes (attempt + 1) fuel' (some m)

/-- The backoff base `min(60.0, (2**attempt) * 0.5)` of
`_get_with_backoff`, over the rationals. -/
def backoffBase (attempt : Nat) : ℚ :=
  min 60 ((2 ^ attempt : ℚ) * (1 / 2))

/-- The slept delay `min(60.0, (2**attempt) * 0.5) + random.random() * 0.25`
of `_get_with_backoff`, with the `random.random()` draw (uniform on
`[0, 1)`) passed in as `draw`. -/
def backoffDelay (attempt : Nat) (draw : ℚ) : ℚ :=
  backoffBase attempt + draw * (1 / 4)

/-- Model of `asyncio.gather` result storage for
`GmailClient.fetch_messages_by_ids`: when the coroutine for original index
`i` completes, its (deterministic) result `task i` is recorded in slot `i`,
whatever the completion order. -/
def gatherWrite (task : Nat → α) (store : Nat → Option α) (i : Nat) :
    Nat → Option α :=
  fun j => if j = i then some (task i) else store j

/-- The result slots after the coroutines complete in the order given by
`order` (a list of original indices). -/
def gatherRun (task : Nat → α) (order : List Nat) : Nat → Option α :=
  order.foldl (gatherWrite task) fun _ => none

/-- Mirrors `GmailClient.fetch_messages_by_ids` in the all-requests-succeed
case: one coroutine per input id, built in input-list order
(`coros = [one(mid) for mid in message_ids]`), gathered with
`asyncio.gather(*coros)`, which returns the recorded results in coroutine
(= input) order.  `respond` is the network's response for an id; `order` is
the order in which the individual responses complete.  A slot is `none`
only if its coroutine never completed (impossible once `order` covers every
index, since `gather` awaits them all). -/
def fetch_messages_by_ids (respond : String → α) (message_ids : List String)
    (order : List Nat) : List (Option α) :=
  (List.range message_ids.length).map
    (gatherRun (fun i => respond (message_ids.getD i "")) order)

/-! ## Accounts, credentials and strategies -/

/-- Mirrors the `EmailAccount` row as read by the orchestrator, which uses
only its `provider` column. -/
structure EmailAccount where
  provider : EmailProvider
deriving DecidableEq, Repr

/-- Mirrors the `GoogleAuthData` row (`src/app/models/models.py`): token
fields, expiry timestamps (modelled as integer epochs) and
`google_user_id`. -/
structure GoogleAuthData where
  access_token : Option String
  refresh_token : Option String
  expires_at : Option Int
  refresh_token_expires_at : Option Int
  google_user_id : Option String
deriving DecidableEq, Repr

/-- Python truthiness test `not x` for an optional string: true for `None`
and for the empty string. -/
def strFalsy : Option String → Bool
  | none => true
  | some s => s.isEmpty

/-- The one concrete auth-data strategy (`GmailAuthDataStrategy`). -/
inductive AuthDataStrategy
  | gmailAuthData
deriving DecidableEq, Repr

/-- Mirrors `AuthDataStrategyFactory.create`
(`src/app/strategies/auth_data_strategy_factory.py`): the
provider-to-class table contains only GMAIL; any other provider raises
`ValueError(f"Unsupported email provider for auth data: {provider}")`. -/
def authDataStrategyFactoryCreate :
    EmailProvider → Except String AuthDataStrategy
  | .gmail => .ok .gmailAuthData
  | p => .error ("Unsupported email provider for auth data: " ++ providerStr p)

/-- The one concrete email-provider strategy (`GmailStrategy`). -/
inductive ProviderStrategy
  | gmailStrategy
deriving DecidableEq, Repr

/-- Mirrors `EmailProviderStrategyFactory.create`
(`src/app/strategies/strategy_factory.py`): only GMAIL is registered; any
other provider raises `ValueError(f"Unsupported email provider:
{provider}")`. -/
def emailProviderStrategyFactoryCreate :
    EmailProvider → Except String ProviderStrategy
  | .gmail => .ok .gmailStrategy
  | p => .error ("Unsupported email provider: " ++ providerStr p)

/-- Mirrors `GmailAuthDataStrategy.get_user_identifier`: returns
`auth_data.google_user_id`. -/
def get_user_identifier (auth_data : GoogleAuthData) : Option String :=
  auth_data.google_user_id

/-! ## Orchestrator: `src/app/tasks/celery/tasks.py` -/

/-- The environment a single orchestration run interacts with: the account
row found for the resource id, the `google_auth_data` row for that account
as it sits in the database (the orchestrator never manages to read it, see
`orchestrateTry`), and the current wall-clock time. -/
structure OrchEnv where
  account : Option EmailAccount
  auth_data : Option GoogleAuthData
  now : Int

/-- Observable actions of one orchestration run: a page-list GET for a
scope, a batch-fetch of a page of ids, or a `JobService.update_job` call
(recording the `status`, `error_message`, `progress_current` and
`completed_at` arguments passed).  Every run raises before reaching the
fetch layer (see `orchestrateTry`), so `orchestrate` never emits the two
network constructors; they are kept so that "no network request was
issued" is directly expressible about a run's event trace. -/
inductive OrchEvent
  | listRequest (label_ids : List String)
  | fetchRequest (ids : List String)
  | jobUpdate (job_id : Nat) (status : Option JobStatus)
      (error_message : Option String) (progress_current : Option Nat)
      (completed_at : Option Int)
deriving DecidableEq, Repr

/-- The dict returned by `_sync_email_metadata_orchestrator`:
`{"status": "success", "message_count": n}` or
`{"status": "error", "message": m}`. -/
inductive OrchResult
  | success (message_count : Nat)
  | error (message : String)
deriving DecidableEq, Repr

/-- How the `try:` block of `_sync_email_metadata_orchestrator` ends: a
`return` of a result dict, or an exception with text `msg`. -/
inductive TryOutcome
  | ret (r : OrchResult)
  | exc (msg : String)
deriving DecidableEq, Repr

/-- Stand-in text for the exception Python raises inside
`JobService.update_job` when the job id is not found (attribute access on
`None` / `session.add(None)`). -/
def attrError : String := "AttributeError"

/-- Stand-in text for the `AttributeError` raised by
`GmailAuthDataStrategy.load_auth_data` (and inside
`EmailAccountService.check_auth_credentials_valid`): both call
`GoogleAuthDataRepository.find_by_email_account_id`, a method that does not
exist — `src/app/repositories/google_auth.py` defines only
`find_by_google_user_id`, `find_by_user_id`, `find_by_user_or_google_id`,
`create` and `update`. -/
def googleAuthRepoAttrError : String :=
  "AttributeError: GoogleAuthDataRepository object has no attribute find_by_email_account_id"

/-- State after running the `try:` block: its outcome, the committed job
store, and the emitted events in order. -/
structure TryOut where
  outcome : TryOutcome
  store : JobStore
  events : List OrchEvent
deriving Repr

/-- The `try:` block of `_sync_email_metadata_orchestrator`, step by step:
mark the job running; load the account (error dict if absent); create the
auth-data strategy (raises `ValueError` for an unregistered provider such
as OUTLOOK); then call `auth_data_strategy.load_auth_data(session,
email_account_uuid)` — which raises `AttributeError` unconditionally,
because it calls the nonexistent
`GoogleAuthDataRepository.find_by_email_account_id`.  Everything after that
call in the source is unreachable: the auth-data / access-token /
user-identifier checks, the provider-strategy creation, the INBOX and SENT
page loops with their `update_job(progress_current=...)` calls, and the
succeeded transition with its `completed_at` argument.  (Were the loops
reachable they would still raise `TypeError`: `GmailStrategy.list_messages`
accepts no `label_ids` keyword and `await`s the client's async generator,
and `GmailStrategy.fetch_messages_by_ids` accepts no `format` keyword.) -/
def orchestrateTry (env : OrchEnv) (job_id : Nat) (email_account_id : String)
    (st : JobStore) : TryOut :=
  match update_job st job_id (some .running) none none none none none none with
  | none => ⟨.exc attrError, st, []⟩
  | some (st1, _) =>
    let ev0 := [OrchEvent.jobUpdate job_id (some .running) none none none]
    match env.account with
    | none =>
      ⟨.ret (.error ("EmailAccount with id " ++ email_account_id ++ " not found")),
        st1, ev0⟩
    | some acct =>
      match authDataStrategyFactoryCreate acct.provider with
      | .error m => ⟨.exc m, st1, ev0⟩
      | .ok _ => ⟨.exc googleAuthRepoAttrError, st1, ev0⟩

/-- Mirrors `_sync_email_metadata_orchestrator` including its `except
Exception` handler: a returned dict passes through; an exception is caught,
a fresh session is opened over the committed store, the job is marked
failed with the exception text via
`update_job(job_id, status=failed, error_message=str(e))`, and the error
dict is returned.  If the handler's own `update_job` raises (job id
absent), the exception propagates out of the task: modelled as `none`.
The `finally:` block closes the provider strategy when one was created;
no run gets that far, so it is a no-op. -/
def orchestrate (env : OrchEnv) (job_id : Nat) (email_account_id : String)
    (st : JobStore) : Option (OrchResult × JobStore × List OrchEvent) :=
  let t := orchestrateTry env job_id email_account_id st
  match t.outcome with
  | .ret r => some (r, t.store, t.events)
  | .exc m =>
    match update_job t.store job_id (some .failed) (some m) none none none none none with
    | none => none
    | some (st2, _) =>
      some (.error m, st2,
        t.events ++ [OrchEvent.jobUpdate job_id (some .failed) (some m) none none])

/-! ## Submission path: `src/app/services/email_account_service.py` -/

/-- Mirrors `EmailAccountService.check_auth_credentials_valid`: a missing
account returns `(False, message)`; for any existing account the very first
lookup, `self.google_auth_repo.find_by_email_account_id(email_account_id)`,
raises `AttributeError` (the method does not exist), so the refresh-token
and expiry checks below it are unreachable and the function can never
return the refresh-expired tuple.  A raised exception is modelled as
`.error`. -/
def check_auth_credentials_valid (account : Option EmailAccount)
    (email_account_id : String) : Except String (Bool × Option String) :=
  match account with
  | none =>
    .ok (false, some ("EmailAccount with id " ++ email_account_id ++ " not found"))
  | some _ => .error googleAuthRepoAttrError

/-- How `EmailAccountService.start_email_account_sync` ends: the Celery
task was dispatched (`sync_email_metadata_orchestrator.delay(...)`), or an
exception was raised first. -/
inductive SubmitOutcome
  | dispatched (email_account_id : String)
  | raised (msg : String)
deriving DecidableEq, Repr

/-- Mirrors `EmailAccountService.start_email_account_sync`: verify the
account exists (else raise `ValueError`); run
`check_auth_credentials_valid`, whose `AttributeError` propagates for every
existing account, so the dispatch arm below it is dead code in the
source. -/
def start_email_account_sync (account : Option EmailAccount)
    (email_account_id : String) : SubmitOutcome :=
  match account with
  | none => .raised ("EmailAccount with id " ++ email_account_id ++ " not found")
  | some _ =>
    match check_auth_credentials_valid account email_account_id with
    | .error m => .raised m
    | .ok (true, _) => .dispatched email_account_id
    | .ok (false, msg) => .raised (msg.getD "Credentials are invalid")

/-! ## Derived notions and concrete scenarios used by the claims -/

/-- Events that stand for outbound network requests (page-list GETs and
batch message fetches). -/
def isNetworkEvent : OrchEvent → Bool
  | .listRequest _ => true
  | .fetchRequest _ => true
  | _ => false

/-- The `progress_current` arguments of the `update_job` calls a run made,
in order (only the calls that passed one). -/
def progressArgs (evs : List OrchEvent) : List Nat :=
  evs.filterMap fun e =>
    match e with
    | .jobUpdate _ _ _ (some p) _ => some p
    | _ => none

/-- A job row as the admission gate creates it: queued, zero progress. -/
def jobOne : WorkflowJob :=
  { id := 1, job_type := .mailbox_sync, status := .queued,
    resource_type := .email_account, resource_id := 7,
    progress_current := 0, progress_total := 0, error_message := none }

/-- A store holding exactly `jobOne`. -/
def stOne : JobStore := { jobs := [jobOne], nextId := 2 }

/-- A fully valid credential row. -/
def authOk : GoogleAuthData :=
  { access_token := some "token", refresh_token := some "refresh",
    expires_at := none, refresh_token_expires_at := none,
    google_user_id := some "user" }

/-- A credential row whose refresh token expired in the past (expiry -1,
with the clock at 0) but whose access token and user id are present. -/
def authExpiredRefresh : GoogleAuthData :=
  { access_token := some "token", refresh_token := some "refresh",
    expires_at := none, refresh_token_expires_at := some (-1),
    google_user_id := some "user" }

/-- A run on a GMAIL account with a fully valid credential row. -/
def envGmail : OrchEnv :=
  { account := some ⟨.gmail⟩, auth_data := some authOk, now := 0 }

/-- A run on a GMAIL account whose credential row is absent. -/
def envGmailNoAuth : OrchEnv :=
  { account := some ⟨.gmail⟩, auth_data := none, now := 0 }

/-- A run on a GMAIL account whose refresh token expired in the past. -/
def envExpiredRefresh : OrchEnv :=
  { account := some ⟨.gmail⟩, auth_data := some authExpiredRefresh, now := 0 }

/-- A run whose account has the unregistered OUTLOOK provider, so the
auth-data strategy factory raises. -/
def envOutlook : OrchEnv :=
  { account := some ⟨.outlook⟩, auth_data := some authOk, now := 0 }

/-- A run whose account lookup fails. -/
def envAccountNone : OrchEnv :=
  { account := none, auth_data := none, now := 0 }

/-! ## Job-store lemmas -/

lemma find_by_id_eq_some_id {st : JobStore} {i : Nat} {j : WorkflowJob}
    (h : find_by_id st i = some j) : j.id = i := by
  have := List.find?_some h
  simpa using this

lemma find?_map_replace (l : List WorkflowJob) (u : WorkflowJob) (i : Nat) :
    ((l.map fun k => if k.id == u.id then u else k).find? fun j => j.id == i).isSome
      = (l.find? fun j => j.id == i).isSome := by
  induction l with
  | nil => simp
  | cons a t ih =>
    simp only [List.map_cons, List.find?]
    by_cases hau : a.id = u.id
    · rw [if_pos (by simp [hau])]
      by_cases hi : a.id = i
      · simp [show (u.id == i) = true from by rw [← hau, hi]; simp,
          show (a.id == i) = true from by simp [hi]]
      · simp only [show (u.id == i) = false from by rw [← hau]; simp [hi],
          show (a.id == i) = false from by simp [hi]]
        exact ih
    · rw [if_neg (by simp [hau])]
      by_cases hi : a.id = i
      · simp [show (a.id == i) = true from by simp [hi]]
      · simp only [show (a.id == i) = false from by simp [hi]]
        exact ih

lemma find?_map_replace_self {l : List WorkflowJob} {i : Nat} {j : WorkflowJob}
    (u : WorkflowJob) (h : l.find? (fun j => j.id == i) = some j) (hu : u.id = i) :
    (l.map fun k => if k.id == u.id then u else k).find? (fun j => j.id == i) = some u := by
  induction l with
  | nil => simp at h
  | cons a t ih =>
    simp only [List.map_cons, List.find?]
    by_cases hi : a.id = i
    · rw [if_pos (by simp [hi, hu])]
      simp [show (u.id == i) = true from by simp [hu]]
    · have hau : ¬ a.id = u.id := fun hh => hi (hh.trans hu)
      rw [if_neg (by simp [hau])]
      simp only [show (a.id == i) = false from by simp [hi]]
      simp only [List.find?, show (a.id == i) = false from by simp [hi]] at h
      exact ih h

lemma find?_map_replace_other {l : List WorkflowJob} {i : Nat}
    (u : WorkflowJob) (hu : u.id = i) (k : Nat) (hk : k ≠ i) :
    (l.map fun kk => if kk.id == u.id then u else kk).find? (fun j => j.id == k)
      = l.find? (fun j => j.id == k) := by
  induction l with
  | nil => simp
  | cons a t ih =>
    simp only [List.map_cons, List.find?]
    by_cases hau : a.id = u.id
    · have hak : (a.id == k) = false := by
        simp only [beq_eq_false_iff_ne, ne_eq]
        rw [hau, hu]; exact fun hh => hk hh.symm
      have huk : (u.id == k) = false := by
        simp only [beq_eq_false_iff_ne, ne_eq]
        rw [hu]; exact fun hh => hk hh.symm
      rw [if_pos (by simp [hau])]
      simp only [huk, hak]
      exact ih
    · rw [if_neg (by simp [hau])]
      by_cases hak : a.id = k
      · simp [show (a.id == k) = true from by simp [hak]]
      · simp only [show (a.id == k) = false from by simp [hak]]
        exact ih

lemma find_by_id_repoUpdate_isSome (st : JobStore) (u : WorkflowJob) (i : Nat) :
    (find_by_id (repoUpdate st u) i).isSome = (find_by_id st i).isSome := by
  simpa [find_by_id, repoUpdate] using find?_map_replace st.jobs u i

lemma find_by_id_repoUpdate_self {st : JobStore} {i : Nat} {j : WorkflowJob}
    (u : WorkflowJob) (h : find_by_id st i = some j) (hu : u.id = i) :
    find_by_id (repoUpdate st u) i = some u := by
  unfold find_by_id repoUpdate at *
  exact find?_map_replace_self u h hu

lemma find_by_id_repoUpdate_other {st : JobStore} {i : Nat}
    (u : WorkflowJob) (hu : u.id = i) (k : Nat) (hk : k ≠ i) :
    find_by_id (repoUpdate st u) k = find_by_id st k := by
  unfold find_by_id repoUpdate
  exact find?_map_replace_other u hu k hk

lemma update_job_isSome {st st' : JobStore} {jid : Nat} {j' : WorkflowJob}
    {s : Option JobStatus} {em : Option String} {pc pt : Option Nat}
    {cu : Option String} {sa ca : Option Int}
    (h : update_job st jid s em pc pt cu sa ca = some (st', j')) (i : Nat) :
    (find_by_id st' i).isSome = (find_by_id st i).isSome := by
  unfold update_job at h
  cases hf : find_by_id st jid with
  | none => rw [hf] at h; exact absurd h (by simp)
  | some j0 =>
    rw [hf] at h
    simp only [Option.some.injEq, Prod.mk.injEq] at h
    obtain ⟨h1, h2⟩ := h
    subst h1
    exact find_by_id_repoUpdate_isSome ..

lemma update_job_status_only {st : JobStore} {jid : Nat} {j0 : WorkflowJob}
    (h : find_by_id st jid = some j0) (s : JobStatus) (pc pt : Option Nat)
    (cu : Option String) (sa ca : Option Int) :
    update_job st jid (some s) none pc pt cu sa ca
      = some (repoUpdate st { j0 with status := s }, { j0 with status := s }) := by
  simp [update_job, h]

lemma update_job_progress_only {st : JobStore} {jid : Nat} {j0 : WorkflowJob}
    (h : find_by_id st jid = some j0) (pc pt : Option Nat)
    (cu : Option String) (sa ca : Option Int) :
    update_job st jid none none pc pt cu sa ca = some (repoUpdate st j0, j0) := by
  simp [update_job, h]

lemma update_job_status_msg {st : JobStore} {jid : Nat} {j0 : WorkflowJob}
    (h : find_by_id st jid = some j0) (s : JobStatus) (m : String)
    (pc pt : Option Nat) (cu : Option String) (sa ca : Option Int) :
    update_job st jid (some s) (some m) pc pt cu sa ca
      = some (repoUpdate st { j0 with status := s, error_message := some m },
          { j0 with status := s, error_message := some m }) := by
  simp [update_job, h]

lemma orchestrateTry_isSome (env : OrchEnv) (jid : Nat) (accId : String)
    (st : JobStore) (i : Nat) :
    (find_by_id (orchestrateTry env jid accId st).store i).isSome
      = (find_by_id st i).isSome := by
  unfold orchestrateTry
  cases hu : update_job st jid (some .running) none none none none none none with
  | none => rfl
  | some p =>
    obtain ⟨st1, j1⟩ := p
    have h1 : (find_by_id st1 i).isSome = (find_by_id st i).isSome :=
      update_job_isSome hu i
    simp only []
    split
    · exact h1
    · split
      · exact h1
      · exact h1

lemma orch_exception_path {env : OrchEnv} {jid : Nat} {accId : String}
    {st : JobStore} {j : WorkflowJob} {t : String}
    (hj : find_by_id st jid = some j)
    (hexc : (orchestrateTry env jid accId st).outcome = .exc t) :
    ∃ st2 evs jF, orchestrate env jid accId st = some (.error t, st2, evs)
      ∧ find_by_id st2 jid = some jF
      ∧ jF.status = .failed ∧ jF.error_message = some t := by
  have hpres := orchestrateTry_isSome env jid accId st jid
  rw [hj] at hpres
  simp only [Option.isSome_some] at hpres
  obtain ⟨j1, hj1⟩ := Option.isSome_iff_exists.mp (by rw [hpres])
  have hid : j1.id = jid := find_by_id_eq_some_id hj1
  have hupd := update_job_status_msg hj1 JobStatus.failed t none none none none none
  unfold orchestrate
  simp only [hexc, hupd]
  refine ⟨_, _, { j1 with status := .failed, error_message := some t }, rfl, ?_, rfl, rfl⟩
  exact find_by_id_repoUpdate_self _ hj1 hid

/-! ## Fetch-client lemmas -/

lemma retryable_status_ge {s : Nat} (h : RETRYABLE_STATUS.contains s = true) :
    ¬ s < 400 := by
  have hm : s = 403 ∨ s = 429 ∨ s = 500 ∨ s = 502 ∨ s = 503 ∨ s = 504 := by
    simpa [RETRYABLE_STATUS] using h
  rcases hm with rfl | rfl | rfl | rfl | rfl | rfl <;> omega

lemma getWithBackoffAux_le (o : Nat → HttpOutcome) :
    ∀ (fuel attempt : Nat) (le : Option String),
      (getWithBackoffAux o attempt fuel le).2 ≤ fuel := by
  intro fuel
  induction fuel with
  | zero => intro attempt le; cases le <;> simp [getWithBackoffAux]
  | succ f ih =>
    intro attempt le
    simp only [getWithBackoffAux]
    cases o attempt with
    | resp s b =>
      simp only []
      by_cases hs : s < 400
      · simp [hs]
      · by_cases hr : s ∈ RETRYABLE_STATUS
        · have hle := ih (attempt + 1) le
          rw [if_neg hs, if_pos (show RETRYABLE_STATUS.contains s = true by simpa using hr)]
          simp only []
          omega
        · simp [hs, hr]
    | transientExc m =>
      simp only []
      have := ih (attempt + 1) (some m)
      omega

lemma getWithBackoffAux_success (o : Nat → HttpOutcome) :
    ∀ (k fuel attempt : Nat) (le : Option String) (s : Nat) (b : String),
      k < fuel →
      (∀ i, i < k → retryableOutcome (o (attempt + i)) = true) →
      o (attempt + k) = .resp s b → s < 400 →
      getWithBackoffAux o attempt fuel le = (.ok s b, k + 1) := by
  intro k
  induction k with
  | zero =>
    intro fuel attempt le s b hk hr ho hs
    match fuel, hk with
    | f + 1, _ =>
      simp only [getWithBackoffAux]
      rw [show o attempt = HttpOutcome.resp s b from ho]
      simp [hs]
  | succ kk ih =>
    intro fuel attempt le s b hk hr ho hs
    match fuel, hk with
    | f + 1, hk =>
      simp only [getWithBackoffAux]
      have h0 : retryableOutcome (o attempt) = true := by
        simpa using hr 0 (Nat.succ_pos kk)
      have hr' : ∀ i, i < kk → retryableOutcome (o (attempt + 1 + i)) = true := by
        intro i hi
        have := hr (i + 1) (by omega)
        rwa [show attempt + (i + 1) = attempt + 1 + i from by omega] at this
      have ho' : o (attempt + 1 + kk) = .resp s b := by
        rwa [show attempt + (kk + 1) = attempt + 1 + kk from by omega] at ho
      cases hoa : o attempt with
      | resp s0 b0 =>
        have hcont : RETRYABLE_STATUS.contains s0 = true := by
          rw [hoa] at h0; simpa [retryableOutcome] using h0
        have hnlt : ¬ s0 < 400 := retryable_status_ge hcont
        simp only [hnlt, if_false, hcont, if_true]
        have hrec := ih f (attempt + 1) le s b (by omega) hr' ho' hs
        simp only [hrec]
      | transientExc m =>
        simp only []
        have hrec := ih f (attempt + 1) (some m) s b (by omega) hr' ho' hs
        simp only [hrec]

lemma getWithBackoffAux_exhaust (o : Nat → HttpOutcome) :
    ∀ (fuel attempt : Nat) (le : Option String),
      (∀ i, i < fuel → retryableOutcome (o (attempt + i)) = true) →
      getWithBackoffAux o attempt fuel le =
        ((match trackLastExc o attempt fuel le with
          | some m => .raised (.transient m)
          | none => .raised .retriesExhausted), fuel) := by
  intro fuel
  induction fuel with
  | zero => intro attempt le h; cases le <;> simp [getWithBackoffAux, trackLastExc]
  | succ f ih =>
    intro attempt le h
    have h0 : retryableOutcome (o attempt) = true := by
      simpa using h 0 (Nat.succ_pos f)
    have h' : ∀ i, i < f → retryableOutcome (o (attempt + 1 + i)) = true := by
      intro i hi
      have := h (i + 1) (by omega)
      rwa [show attempt + (i + 1) = attempt + 1 + i from by omega] at this
    simp only [getWithBackoffAux, trackLastExc]
    cases hoa : o attempt with
    | resp s0 b0 =>
      have hcont : RETRYABLE_STATUS.contains s0 = true := by
        rw [hoa] at h0; simpa [retryableOutcome] using h0
      have hnlt : ¬ s0 < 400 := retryable_status_ge hcont
      simp only [hnlt, if_false, hcont, if_true]
      simp only [ih (attempt + 1) le h']
    | transientExc m =>
      simp only []
      simp only [ih (attempt + 1) (some m) h']

lemma trackLastExc_split (o : Nat → HttpOutcome) :
    ∀ (f1 f2 attempt : Nat) (le : Option String),
      trackLastExc o attempt (f1 + f2) le
        = trackLastExc o (attempt + f1) f2 (trackLastExc o attempt f1 le) := by
  intro f1
  induction f1 with
  | zero => intro f2 attempt le; simp [trackLastExc]
  | succ f ih =>
    intro f2 attempt le
    rw [show f + 1 + f2 = (f + f2) + 1 from by omega]
    simp only [trackLastExc]
    cases o attempt with
    | resp s b =>
      simp only []
      rw [ih f2 (attempt + 1) le,
        show attempt + (f + 1) = attempt + 1 + f from by omega]
    | transientExc m =>
      simp only []
      rw [ih f2 (attempt + 1) (some m),
        show attempt + (f + 1) = attempt + 1 + f from by omega]

lemma trackLastExc_resp (o : Nat → HttpOutcome) :
    ∀ (fuel attempt : Nat) (le : Option String),
      (∀ i, i < fuel → ∃ s b, o (attempt + i) = .resp s b) →
      trackLastExc o attempt fuel le = le := by
  intro fuel
  induction fuel with
  | zero => intro attempt le _; simp [trackLastExc]
  | succ f ih =>
    intro attempt le h
    obtain ⟨s, b, hsb⟩ := h 0 (Nat.succ_pos f)
    simp only [trackLastExc]
    rw [show o attempt = HttpOutcome.resp s b from by simpa using hsb]
    exact ih (attempt + 1) le fun i hi => by
      obtain ⟨s2, b2, h2⟩ := h (i + 1) (by omega)
      exact ⟨s2, b2, by
        rwa [show attempt + (i + 1) = attempt + 1 + i from by omega] at h2⟩

/-! ## Gather lemmas -/

lemma gatherRun_foldl (task : Nat → α) :
    ∀ (order : List Nat) (store : Nat → Option α) (i : Nat),
      (order.foldl (gatherWrite task) store) i
        = if i ∈ order then some (task i) else store i := by
  intro order
  induction order with
  | nil => intro store i; simp [gatherRun]
  | cons a t ih =>
    intro store i
    simp only [List.foldl_cons]
    rw [ih]
    by_cases hm : i ∈ t
    · simp [hm]
    · by_cases ha : i = a
      · subst ha
        simp [hm, gatherWrite]
      · simp [hm, ha, gatherWrite]

lemma map_getD_range (f : String → β) :
    ∀ (l : List String),
      (List.range l.length).map (fun i => f (l.getD i "")) = l.map f := by
  intro l
  induction l with
  | nil => simp
  | cons a t ih =>
    simp only [List.length_cons, List.range_succ_eq_map, List.map_cons, List.map_map]
    rw [← ih]
    refine congrArg₂ _ (by simp) (List.map_congr_left fun i hi => ?_)
    simp

/-! ## Claim theorems -/

/-- C9: for every retry attempt `k` (0-indexed) in either fetch-client
operation, the backoff delay slept before the next attempt lies in
`[min(60, 0.5·2^k), min(60, 0.5·2^k) + 0.25)`, with the jitter
`random.random() * 0.25` lying in `[0, 0.25)` for any uniform draw
`draw ∈ [0, 1)`. -/
theorem backoff_delay_in_range (k : Nat) (draw : ℚ)
    (h0 : 0 ≤ draw) (h1 : draw < 1) :
    (backoffBase k ≤ backoffDelay k draw
        ∧ backoffDelay k draw < backoffBase k + 1 / 4)
    ∧ (0 ≤ draw * (1 / 4) ∧ draw * (1 / 4) < 1 / 4) := by
  unfold backoffDelay
  refine ⟨⟨?_, ?_⟩, ?_, ?_⟩ <;> nlinarith

/-- Witness for `backoff_delay_in_range` at attempt 3 and draw 1/2. -/
theorem backoff_delay_in_range_witness :
    (backoffBase 3 ≤ backoffDelay 3 (1 / 2)
        ∧ backoffDelay 3 (1 / 2) < backoffBase 3 + 1 / 4)
    ∧ (0 ≤ (1 / 2 : ℚ) * (1 / 4) ∧ (1 / 2 : ℚ) * (1 / 4) < 1 / 4) :=
  backoff_delay_in_range 3 (1 / 2) (by norm_num) (by norm_num)

/-- C6: `fetch_messages_by_ids` is order-preserving: whatever order the
individual responses complete in (any `order` covering every index), the
result is the input ids mapped to their responses, so the i-th output is
the record for the i-th input id and the length matches. -/
theorem fetch_by_ids_order_preserving {α : Type} (respond : String → α)
    (message_ids : List String) (order : List Nat)
    (hcover : ∀ i, i < message_ids.length → i ∈ order) :
    fetch_messages_by_ids respond message_ids order
        = message_ids.map (fun mid => some (respond mid))
    ∧ (fetch_messages_by_ids respond message_ids order).length
        = message_ids.length := by
  have hmain : fetch_messages_by_ids respond message_ids order
      = message_ids.map fun mid => some (respond mid) := by
    unfold fetch_messages_by_ids gatherRun
    have hpt : ∀ i ∈ List.range message_ids.length,
        (order.foldl (gatherWrite fun k => respond (message_ids.getD k ""))
            fun _ => none) i
          = some (respond (message_ids.getD i "")) := by
      intro i hi
      rw [gatherRun_foldl]
      rw [if_pos (hcover i (List.mem_range.mp hi))]
    rw [List.map_congr_left hpt]
    exact map_getD_range (fun x => some (respond x)) message_ids
  exact ⟨hmain, by rw [hmain, List.length_map]⟩

/-- Witness for `fetch_by_ids_order_preserving`: ids `[a, b, c]` with the
response for index 1 (`b`) completing before index 0 (`a`). -/
theorem fetch_by_ids_order_preserving_witness :
    fetch_messages_by_ids (fun mid => mid ++ "!") ["a", "b", "c"] [1, 0, 2]
      = [some "a!", some "b!", some "c!"] := by
  have h := fetch_by_ids_order_preserving (fun mid => mid ++ "!")
    ["a", "b", "c"] [1, 0, 2] (by decide)
  rw [h.1]
  rfl

/-- C3: `_get_with_backoff` makes at most 8 attempts; any run of at most 7
retryable outcomes followed by a sub-400 response returns that response
(after exactly the attempts used); any 8 retryable outcomes raise — the
last captured transient exception if any attempt raised one, otherwise the
generic retries-exhausted failure — and never return a response. -/
theorem fetch_retry_contract (o : Nat → HttpOutcome) :
    (get_with_backoff o 8).2 ≤ 8
    ∧ (∀ k s b, k ≤ 7 → (∀ i, i < k → retryableOutcome (o i) = true) →
        o k = .resp s b → s < 400 →
        get_with_backoff o 8 = (.ok s b, k + 1))
    ∧ (∀ j m, j < 8 → (∀ i, i < 8 → retryableOutcome (o i) = true) →
        o j = .transientExc m →
        (∀ i, j < i → i < 8 → ∃ s b, o i = .resp s b) →
        get_with_backoff o 8 = (.raised (.transient m), 8))
    ∧ ((∀ i, i < 8 → ∃ s b, o i = .resp s b ∧ RETRYABLE_STATUS.contains s = true) →
        get_with_backoff o 8 = (.raised .retriesExhausted, 8)) := by
  refine ⟨getWithBackoffAux_le o 8 0 none, ?_, ?_, ?_⟩
  · intro k s b hk hr ho hs
    unfold get_with_backoff
    exact getWithBackoffAux_success o k 8 0 none s b (by omega)
      (fun i hi => by rw [Nat.zero_add]; exact hr i hi)
      (by rw [Nat.zero_add]; exact ho) hs
  · intro j m hj hr ho hresp
    unfold get_with_backoff
    rw [getWithBackoffAux_exhaust o 8 0 none
      (fun i hi => by rw [Nat.zero_add]; exact hr i hi)]
    have hinner : trackLastExc o 0 (j + 1) none = some m := by
      rw [trackLastExc_split o j 1 0 none]
      simp only [Nat.zero_add, trackLastExc]
      rw [show o j = HttpOutcome.transientExc m from ho]
    have e1 : trackLastExc o 0 ((j + 1) + (7 - j)) none = some m := by
      rw [trackLastExc_split, hinner]
      apply trackLastExc_resp
      intro i hi
      obtain ⟨s, b, hsb⟩ := hresp (j + 1 + i) (by omega) (by omega)
      exact ⟨s, b, by rwa [show 0 + (j + 1) + i = j + 1 + i from by omega]⟩
    have htr : trackLastExc o 0 8 none = some m := by
      rw [show (8 : Nat) = (j + 1) + (7 - j) from by omega]
      exact e1
    rw [htr]
  · intro hresp
    unfold get_with_backoff
    rw [getWithBackoffAux_exhaust o 8 0 none (fun i hi => by
      obtain ⟨s, b, hsb, hcont⟩ := hresp i hi
      rw [Nat.zero_add, hsb]
      simpa [retryableOutcome] using hcont)]
    have htr : trackLastExc o 0 8 none = none := by
      apply trackLastExc_resp
      intro i hi
      obtain ⟨s, b, hsb, _⟩ := hresp i hi
      exact ⟨s, b, by rwa [Nat.zero_add]⟩
    rw [htr]

/-- Witness for `fetch_retry_contract`: two transient failures then success
returns the success in 3 attempts; eight retryable statuses exhaust with
the generic failure; a transient followed by seven retryable statuses
re-raises the transient exception. -/
theorem fetch_retry_contract_witness :
    get_with_backoff
        (fun i => if i < 2 then HttpOutcome.transientExc "boom"
          else .resp 200 "ok") 8 = (.ok 200 "ok", 3)
    ∧ get_with_backoff (fun _ => HttpOutcome.resp 503 "busy") 8
        = (.raised .retriesExhausted, 8)
    ∧ get_with_backoff
        (fun i => if i = 0 then HttpOutcome.transientExc "reset"
          else .resp 429 "limited") 8 = (.raised (.transient "reset"), 8) := by
  refine ⟨?_, ?_, ?_⟩
  · exact (fetch_retry_contract _).2.1 2 200 "ok" (by omega)
      (fun i hi => by simp [retryableOutcome, hi]) (by simp) (by omega)
  · exact (fetch_retry_contract _).2.2.2 fun i _ => ⟨503, "busy", rfl, by decide⟩
  · exact (fetch_retry_contract _).2.2.1 0 "reset" (by omega)
      (fun i hi => by
        by_cases h0 : i = 0 <;> simp [retryableOutcome, h0, RETRYABLE_STATUS])
      (by simp)
      (fun i h1 h2 => ⟨429, "limited", by simp [Nat.pos_iff_ne_zero.mp h1]⟩)

/-- A non-retryable error response after a run of retryable outcomes makes
`_get_with_backoff` raise `HTTPStatusError` right there, with no further
attempt. -/
lemma getWithBackoffAux_nonretryable (o : Nat → HttpOutcome) :
    ∀ (k fuel attempt : Nat) (le : Option String) (s : Nat) (b : String),
      k < fuel →
      (∀ i, i < k → retryableOutcome (o (attempt + i)) = true) →
      o (attempt + k) = .resp s b → ¬ s < 400 →
      RETRYABLE_STATUS.contains s = false →
      getWithBackoffAux o attempt fuel le
        = (.raised (.httpStatusError s), k + 1) := by
  intro k
  induction k with
  | zero =>
    intro fuel attempt le s b hk hr ho hs hcont
    match fuel, hk with
    | f + 1, _ =>
      simp only [getWithBackoffAux]
      rw [show o attempt = HttpOutcome.resp s b from ho]
      simp only []
      rw [if_neg hs, if_neg (by simpa using hcont)]
  | succ kk ih =>
    intro fuel attempt le s b hk hr ho hs hcont
    match fuel, hk with
    | f + 1, hk =>
      simp only [getWithBackoffAux]
      have h0 : retryableOutcome (o attempt) = true := by
        simpa using hr 0 (Nat.succ_pos kk)
      have hr2 : ∀ i, i < kk → retryableOutcome (o (attempt + 1 + i)) = true := by
        intro i hi
        have := hr (i + 1) (by omega)
        rwa [show attempt + (i + 1) = attempt + 1 + i from by omega] at this
      have ho2 : o (attempt + 1 + kk) = .resp s b := by
        rwa [show attempt + (kk + 1) = attempt + 1 + kk from by omega] at ho
      cases hoa : o attempt with
      | resp s0 b0 =>
        have hc0 : RETRYABLE_STATUS.contains s0 = true := by
          rw [hoa] at h0; simpa [retryableOutcome] using h0
        have hnlt : ¬ s0 < 400 := retryable_status_ge hc0
        simp only [hnlt, if_false, hc0, if_true]
        simp only [ih f (attempt + 1) le s b (by omega) hr2 ho2 hs hcont]
      | transientExc m =>
        simp only []
        simp only [ih f (attempt + 1) (some m) s b (by omega) hr2 ho2 hs hcont]

/-- C8: an error response whose status is outside `RETRYABLE_STATUS` — at
whatever attempt it occurs, after any run of retryable outcomes — makes
`_get_with_backoff` raise immediately after that single request with no
further retry; and whenever an orchestration run's `try:` block ends in a
raised failure with text `m` (which is how a fetch-layer `HTTPStatusError`
would surface; in this code every run in fact raises earlier, at
`load_auth_data`), the run marks the job failed with `m` and returns the
error dict. -/
theorem non_retryable_fails_immediately :
    (∀ (o : Nat → HttpOutcome) (k s : Nat) (b : String),
      k < 8 → (∀ i, i < k → retryableOutcome (o i) = true) →
      o k = .resp s b → 400 ≤ s → RETRYABLE_STATUS.contains s = false →
      get_with_backoff o 8 = (.raised (.httpStatusError s), k + 1))
    ∧ (∀ (env : OrchEnv) (jid : Nat) (accId : String) (st : JobStore)
        (j : WorkflowJob) (m : String),
        find_by_id st jid = some j →
        (orchestrateTry env jid accId st).outcome = .exc m →
        ∃ st2 evs jF,
          orchestrate env jid accId st = some (.error m, st2, evs)
          ∧ find_by_id st2 jid = some jF
          ∧ jF.status = .failed ∧ jF.error_message = some m) := by
  constructor
  · intro o k s b hk hr ho hge hcont
    unfold get_with_backoff
    exact getWithBackoffAux_nonretryable o k 8 0 none s b hk
      (fun i hi => by rw [Nat.zero_add]; exact hr i hi)
      (by rw [Nat.zero_add]; exact ho) (by omega) hcont
  · intro env jid accId st j m hj hexc
    exact orch_exception_path hj hexc

/-- Witness for `non_retryable_fails_immediately`: a retryable 429 followed
by a 404 raises after exactly two requests; a run on a GMAIL account raises
at `load_auth_data` and ends with the job failed carrying that text. -/
theorem non_retryable_fails_immediately_witness :
    get_with_backoff
        (fun i => if i = 0 then HttpOutcome.resp 429 "limited"
          else .resp 404 "not found") 8
      = (.raised (.httpStatusError 404), 2)
    ∧ ∃ st2 evs jF,
        orchestrate envGmail 1 "acc" stOne
          = some (.error googleAuthRepoAttrError, st2, evs)
        ∧ find_by_id st2 1 = some jF
        ∧ jF.status = .failed
        ∧ jF.error_message = some googleAuthRepoAttrError :=
  ⟨non_retryable_fails_immediately.1 _ 1 404 "not found" (by omega)
      (fun i hi => by
        simp [show i = 0 from by omega, retryableOutcome, RETRYABLE_STATUS])
      (by simp) (by omega) (by decide),
   non_retryable_fails_immediately.2 envGmail 1 "acc" stOne jobOne
     googleAuthRepoAttrError (by decide) (by decide)⟩

/-- C4: whenever the `try:` block of an orchestration run ends in an
uncaught exception with text `t` (at whatever stage), the run marks the job
failed with `error_message = t` through a fresh session over the committed
store and returns the error dict `{status: "error", message: t}`. -/
theorem uncaught_error_marks_job_failed (env : OrchEnv) (jid : Nat)
    (accId : String) (st : JobStore) (j : WorkflowJob) (t : String)
    (hj : find_by_id st jid = some j)
    (hexc : (orchestrateTry env jid accId st).outcome = .exc t) :
    ∃ st2 evs jF, orchestrate env jid accId st = some (.error t, st2, evs)
      ∧ find_by_id st2 jid = some jF
      ∧ jF.status = .failed ∧ jF.error_message = some t :=
  orch_exception_path hj hexc

/-- Witness for `uncaught_error_marks_job_failed`: the OUTLOOK account makes
the auth-data strategy factory raise, and the job ends failed with that
text. -/
theorem uncaught_error_marks_job_failed_witness :
    ∃ st2 evs jF,
      orchestrate envOutlook 1 "acc" stOne
          = some (.error "Unsupported email provider for auth data: outlook",
              st2, evs)
        ∧ find_by_id st2 1 = some jF
        ∧ jF.status = .failed
        ∧ jF.error_message = some "Unsupported email provider for auth data: outlook" :=
  uncaught_error_marks_job_failed envOutlook 1 "acc" stOne jobOne
    "Unsupported email provider for auth data: outlook" (by decide) (by decide)

/-- C7: with no active job for the tuple, calling the admission gate twice
in immediate succession returns `created = true` the first time and
`created = false` with the same job id the second time, and the second call
leaves the store unchanged (no new job record). -/
theorem admission_gate_two_calls (st : JobStore) (rt : ResourceType)
    (rid : Nat) (jt : JobType)
    (h : find_job_by_resource st rid rt jt
      [JobStatus.queued, JobStatus.running] = none) :
    (get_or_create_active_job st rt rid jt).2.2 = true
    ∧ (get_or_create_active_job
        (get_or_create_active_job st rt rid jt).1 rt rid jt).2.2 = false
    ∧ (get_or_create_active_job
        (get_or_create_active_job st rt rid jt).1 rt rid jt).2.1.id
        = (get_or_create_active_job st rt rid jt).2.1.id
    ∧ (get_or_create_active_job
        (get_or_create_active_job st rt rid jt).1 rt rid jt).1
        = (get_or_create_active_job st rt rid jt).1 := by
  have hfilter : st.jobs.filter (fun j => jobMatchesResource rid rt jt j
      && [JobStatus.queued, JobStatus.running].contains j.status) = [] := by
    unfold find_job_by_resource at h
    rw [if_neg (by simp)] at h
    exact List.head?_eq_none_iff.mp h
  have h1 : get_or_create_active_job st rt rid jt
      = ((repoCreate st rid rt jt JobStatus.queued).1,
          (repoCreate st rid rt jt JobStatus.queued).2, true) := by
    unfold get_or_create_active_job
    rw [h]
  have hmatch : (jobMatchesResource rid rt jt
        (repoCreate st rid rt jt JobStatus.queued).2
      && [JobStatus.queued, JobStatus.running].contains
        (repoCreate st rid rt jt JobStatus.queued).2.status) = true := by
    simp [repoCreate, jobMatchesResource]
  have hfind2 : find_job_by_resource (repoCreate st rid rt jt JobStatus.queued).1
      rid rt jt [JobStatus.queued, JobStatus.running]
      = some (repoCreate st rid rt jt JobStatus.queued).2 := by
    unfold find_job_by_resource
    rw [if_neg (by simp)]
    rw [show (repoCreate st rid rt jt JobStatus.queued).1.jobs
      = st.jobs ++ [(repoCreate st rid rt jt JobStatus.queued).2] from rfl]
    rw [List.filter_append, hfilter, List.nil_append]
    have hsingle : List.filter (fun j => jobMatchesResource rid rt jt j
        && [JobStatus.queued, JobStatus.running].contains j.status)
        [(repoCreate st rid rt jt JobStatus.queued).2]
        = [(repoCreate st rid rt jt JobStatus.queued).2] := by
      rw [List.filter_cons, if_pos hmatch, List.filter_nil]
    rw [hsingle]
    rfl
  have h2 : get_or_create_active_job
      (repoCreate st rid rt jt JobStatus.queued).1 rt rid jt
      = ((repoCreate st rid rt jt JobStatus.queued).1,
          (repoCreate st rid rt jt JobStatus.queued).2, false) := by
    unfold get_or_create_active_job
    rw [hfind2]
  rw [h1]
  simp [h2]

/-- Witness for `admission_gate_two_calls` on an empty store. -/
theorem admission_gate_two_calls_witness :
    (get_or_create_active_job ⟨[], 0⟩ ResourceType.email_account 7
        JobType.mailbox_sync).2.2 = true
    ∧ (get_or_create_active_job
        (get_or_create_active_job ⟨[], 0⟩ ResourceType.email_account 7
          JobType.mailbox_sync).1 ResourceType.email_account 7
          JobType.mailbox_sync).2.2 = false
    ∧ (get_or_create_active_job
        (get_or_create_active_job ⟨[], 0⟩ ResourceType.email_account 7
          JobType.mailbox_sync).1 ResourceType.email_account 7
          JobType.mailbox_sync).2.1.id
        = (get_or_create_active_job ⟨[], 0⟩ ResourceType.email_account 7
            JobType.mailbox_sync).2.1.id
    ∧ (get_or_create_active_job
        (get_or_create_active_job ⟨[], 0⟩ ResourceType.email_account 7
          JobType.mailbox_sync).1 ResourceType.email_account 7
          JobType.mailbox_sync).1
        = (get_or_create_active_job ⟨[], 0⟩ ResourceType.email_account 7
            JobType.mailbox_sync).1 :=
  admission_gate_two_calls ⟨[], 0⟩ ResourceType.email_account 7
    JobType.mailbox_sync (by decide)

/-- C10 counterexample: in the auth-data-absent scenario (GMAIL account,
no `google_auth_data` row) the claim says the run returns an error result
with the job still `running` and `error_message` unmodified; in fact the
run raises `AttributeError` inside `load_auth_data` before the auth-data
check can happen, and ends with the job `failed` and `error_message`
set. -/
theorem domain_validation_branches_dead :
    (orchestrate envGmailNoAuth 1 "acc" stOne).map
        (fun r => (find_by_id r.2.1 1).map fun jb => jb.status)
      = some (some JobStatus.failed)
    ∧ (orchestrate envGmailNoAuth 1 "acc" stOne).map
        (fun r => (find_by_id r.2.1 1).map fun jb => jb.error_message)
      = some (some (some googleAuthRepoAttrError)) :=
  ⟨by decide, by decide⟩

/-- C10 (amended): of the four domain-validation branches only
account-not-found is reachable; that branch returns a structured error dict
and leaves the store exactly as the initial running transition left it (job
status `running`, every other field and every other row unchanged).  The
auth-data-absent, access-token and user-identifier branches are dead code:
for any existing account the run raises before them (`AttributeError` at
`load_auth_data` for GMAIL, the factory `ValueError` otherwise) and ends
with the job marked `failed` and the exception text as `error_message`. -/
theorem domain_validation_frame (env : OrchEnv) (jid : Nat) (accId : String)
    (st : JobStore) (j : WorkflowJob) (hj : find_by_id st jid = some j) :
    (env.account = none →
      orchestrate env jid accId st
          = some (.error ("EmailAccount with id " ++ accId ++ " not found"),
              repoUpdate st { j with status := .running },
              [OrchEvent.jobUpdate jid (some .running) none none none])
      ∧ find_by_id (repoUpdate st { j with status := .running }) jid
          = some { j with status := .running }
      ∧ ∀ i, i ≠ jid →
          find_by_id (repoUpdate st { j with status := .running }) i
            = find_by_id st i)
    ∧ (env.account.isSome = true →
      ∃ m st2 evs jF,
        orchestrate env jid accId st = some (.error m, st2, evs)
        ∧ find_by_id st2 jid = some jF
        ∧ jF.status = .failed ∧ jF.error_message = some m) := by
  have hid : j.id = jid := find_by_id_eq_some_id hj
  have hupd := update_job_status_only hj JobStatus.running none none none none none
  constructor
  · intro hA
    refine ⟨?_, find_by_id_repoUpdate_self _ hj hid,
      fun i hi =>
        find_by_id_repoUpdate_other { j with status := JobStatus.running } hid i hi⟩
    unfold orchestrate orchestrateTry
    rw [hupd]
    simp [hA]
  · intro hacct
    obtain ⟨a, ha⟩ := Option.isSome_iff_exists.mp hacct
    have hexcT : ∃ m, (orchestrateTry env jid accId st).outcome = .exc m := by
      unfold orchestrateTry
      rw [hupd]
      simp only [ha]
      cases authDataStrategyFactoryCreate a.provider with
      | error m => exact ⟨m, rfl⟩
      | ok _ => exact ⟨googleAuthRepoAttrError, rfl⟩
    obtain ⟨m, hexc⟩ := hexcT
    obtain ⟨st2, evs, jF, h1, h2, h3, h4⟩ := orch_exception_path hj hexc
    exact ⟨m, st2, evs, jF, h1, h2, h3, h4⟩

/-- Witness for `domain_validation_frame`: the account-not-found branch on
`envAccountNone` keeps the job running and untouched; the OUTLOOK run (an
existing account) ends failed. -/
theorem domain_validation_frame_witness :
    (orchestrate envAccountNone 1 "acc" stOne
        = some (.error ("EmailAccount with id " ++ "acc" ++ " not found"),
            repoUpdate stOne { jobOne with status := JobStatus.running },
            [OrchEvent.jobUpdate 1 (some .running) none none none]))
    ∧ (∃ m st2 evs jF,
        orchestrate envOutlook 1 "acc" stOne = some (.error m, st2, evs)
        ∧ find_by_id st2 1 = some jF
        ∧ jF.status = .failed ∧ jF.error_message = some m) :=
  ⟨((domain_validation_frame envAccountNone 1 "acc" stOne jobOne (by decide)).1
      rfl).1,
   (domain_validation_frame envOutlook 1 "acc" stOne jobOne (by decide)).2 rfl⟩

/-- C2: a credential whose `refresh_token_expires_at` is present and in the
past makes the orchestrator run return an error result before issuing any
network call.  In this code every run on an existing account does exactly
that — the run raises straight after the running transition
(`AttributeError` inside `load_auth_data` for GMAIL, the factory
`ValueError` for an unregistered provider), so the returned dict is an
error and the event trace contains no page-list or message-fetch
request. -/
theorem expired_refresh_errors_before_network (env : OrchEnv) (jid : Nat)
    (accId : String) (st : JobStore) (j : WorkflowJob) (g : GoogleAuthData)
    (t : Int) (hj : find_by_id st jid = some j)
    (hacct : env.account.isSome = true)
    (hg : env.auth_data = some g)
    (hexp : g.refresh_token_expires_at = some t) (hlt : t < env.now) :
    ∃ m st2 evs,
      orchestrate env jid accId st = some (.error m, st2, evs)
      ∧ evs.countP (fun e => isNetworkEvent e) = 0 := by
  obtain ⟨a, ha⟩ := Option.isSome_iff_exists.mp hacct
  have hupd := update_job_status_only hj JobStatus.running none none none none none
  have hexcT : ∃ m, orchestrateTry env jid accId st
      = ⟨.exc m, repoUpdate st { j with status := .running },
          [OrchEvent.jobUpdate jid (some .running) none none none]⟩ := by
    unfold orchestrateTry
    rw [hupd]
    simp only [ha]
    cases authDataStrategyFactoryCreate a.provider with
    | error m => exact ⟨m, rfl⟩
    | ok _ => exact ⟨googleAuthRepoAttrError, rfl⟩
  obtain ⟨m, hT⟩ := hexcT
  have hid : j.id = jid := find_by_id_eq_some_id hj
  have hj1 : find_by_id (repoUpdate st { j with status := .running }) jid
      = some { j with status := .running } :=
    find_by_id_repoUpdate_self { j with status := JobStatus.running } hj hid
  have hupd2 := update_job_status_msg hj1 JobStatus.failed m none none none none none
  have horch : orchestrate env jid accId st
      = some (.error m,
          repoUpdate (repoUpdate st { j with status := JobStatus.running })
            { j with status := JobStatus.failed, error_message := some m },
          [OrchEvent.jobUpdate jid (some .running) none none none,
            OrchEvent.jobUpdate jid (some .failed) (some m) none none]) := by
    unfold orchestrate
    rw [hT]
    simp only [hupd2]
    rfl
  exact ⟨m, _, _, horch, rfl⟩

/-- Witness for `expired_refresh_errors_before_network` on the concrete
expired-refresh credential. -/
theorem expired_refresh_errors_before_network_witness :
    ∃ m st2 evs,
      orchestrate envExpiredRefresh 1 "acc" stOne = some (.error m, st2, evs)
      ∧ evs.countP (fun e => isNetworkEvent e) = 0 :=
  expired_refresh_errors_before_network envExpiredRefresh 1 "acc" stOne jobOne
    authExpiredRefresh (-1) (by decide) rfl rfl rfl (by decide)

/-- C5: no orchestration run can exhaust the mailbox scopes: a run on an
existing GMAIL account raises `AttributeError` inside `load_auth_data`,
ends with the job failed carrying the exception text, and returns an error
dict — the succeeded transition of the source is dead code and the event
trace holds no succeeded / `completed_at` update.  And even where that
transition sits in the source, `update_job` drops the `completed_at` it is
given: called directly with `status=succeeded, completed_at=12345` it
persists only the status (the assignment is commented out and
`WorkflowJob` has no timestamp column). -/
theorem success_no_completion_timestamp :
    orchestrate envGmail 1 "acc" stOne
      = some (.error googleAuthRepoAttrError,
          { jobs := [{ jobOne with status := JobStatus.failed, error_message := some googleAuthRepoAttrError }], nextId := 2 },
          [.jobUpdate 1 (some .running) none none none,
           .jobUpdate 1 (some .failed) (some googleAuthRepoAttrError) none none])
    ∧ update_job stOne 1 (some JobStatus.succeeded) none none none none none
        (some 12345)
      = some ({ jobs := [{ jobOne with status := JobStatus.succeeded }], nextId := 2 },
          { jobOne with status := JobStatus.succeeded }) :=
  ⟨by decide, by decide⟩

/-- C1: the end-to-end progress scenario never happens: a run on a GMAIL
account with a valid credential raises `AttributeError` inside
`load_auth_data` straight after the running transition, so the job is
marked failed, an error dict is returned, `update_job` is never called with
a `progress_current` argument, and the persisted `progress_current` stays
0.  And even where the loop would make that call, `update_job` drops the
`progress_current` it is given: called directly with `progress_current=500`
it changes nothing (the assignment is commented out in the source). -/
theorem progress_updates_not_persisted :
    (orchestrate envGmail 1 "acc" stOne).map (fun r => r.1)
        = some (.error googleAuthRepoAttrError)
    ∧ (orchestrate envGmail 1 "acc" stOne).map (fun r => progressArgs r.2.2)
        = some []
    ∧ (orchestrate envGmail 1 "acc" stOne).map
        (fun r => (find_by_id r.2.1 1).map fun jb => jb.progress_current)
        = some (some 0)
    ∧ update_job stOne 1 none none (some 500) none none none none
        = some (stOne, jobOne) :=
  ⟨by decide, by decide, by decide, by decide⟩

end VioletCache
